import Mathlib

set_option maxRecDepth 100000
set_option maxHeartbeats 2000000

/-!
Verification development for the `melior-build` crate: a build-time code
generator that classifies TableGen (`.td`) definition files, validates a
two-level C++ namespace, invokes `mlir-tblgen` per file and capability, and
synthesizes a C++ registration shim and a Rust FFI binding module.

String computations from the source are embedded at the character-list level
(`List Char`, connected to `String` via `String.data`) so that every
definition evaluates inside the kernel.
-/

namespace MeliorBuild

/-! ## Character-level string utilities

These model the Rust standard-library string operations used by the source
(`str::trim`, `str::split`, `str::starts_with`, `str::ends_with`,
`str::contains`) on the character lists underlying Lean strings.  The regex
character classes `\w` and `\s` are modelled on their ASCII fragment, which
is the fragment exercised by TableGen sources. -/

/-- ASCII word character, the `\w` class of the source's regexes. -/
def wordChar (c : Char) : Bool := c.isAlphanum || c == '_'

/-- ASCII whitespace, the `\s` class of the source's regexes and the
characters stripped by `str::trim`. -/
def spaceChar (c : Char) : Bool :=
  c == ' ' || c == '\t' || c == '\n' || c == '\r' || c == '\x0b' || c == '\x0c'

/-- Models `str::trim`: strip whitespace from both ends. -/
def trimChars (l : List Char) : List Char :=
  ((l.dropWhile spaceChar).reverse.dropWhile spaceChar).reverse

/-- Models `str::split("::")` on character lists, with Rust's leftmost
non-overlapping split semantics. -/
def splitOnColons : List Char → List (List Char)
  | [] => [[]]
  | [c] => [[c]]
  | c1 :: c2 :: rest =>
    if c1 == ':' && c2 == ':' then
      [] :: splitOnColons rest
    else
      match splitOnColons (c2 :: rest) with
      | [] => [[c1]]
      | h :: t => (c1 :: h) :: t

/-- Models `str::split('_')` on character lists. -/
def splitOnUnderscore : List Char → List (List Char)
  | [] => [[]]
  | c :: rest =>
    if c == '_' then
      [] :: splitOnUnderscore rest
    else
      match splitOnUnderscore rest with
      | [] => [[c]]
      | h :: t => (c :: h) :: t

/-- Models `str::ends_with`. -/
def endsWithChars (pat l : List Char) : Bool := pat.reverse.isPrefixOf l.reverse

/-! ## Content Classifier (`src/melior-build/src/tblgen.rs`)

The five recognizers are the crate's `DIALECT_RE`, `OP_RE`, `TYPEDEF_RE`,
`ATTRDEF_RE` and `ENUM_RE` regular expressions, embedded as explicit
pattern sequences with a backtracking matcher.  An alternation
`(A<|B<)` is embedded as two pattern sequences, searched separately. -/

/-- One element of a regex pattern sequence: a literal, a single character
of a class (`\w`, `\s`), zero-or-more of a class (`\w*`, `\s*`), or an
optional character (`_?`). -/
inductive Pat where
  | lit : List Char → Pat
  | one : (Char → Bool) → Pat
  | star : (Char → Bool) → Pat
  | optc : Char → Pat

/-- Try matching the continuation `k` after consuming zero or more
characters of class `p`: the backtracking semantics of a regex `p*`. -/
def starMatch (p : Char → Bool) (k : List Char → Bool) : List Char → Bool
  | [] => k []
  | c :: s => k (c :: s) || (p c && starMatch p k s)

/-- Does some prefix of `s` match the pattern sequence `ps`?  Backtracking
over `star` and `optc` reproduces the regex engine's semantics. -/
def seqMatch : List Pat → List Char → Bool
  | [], _ => true
  | .lit l :: ps, s => l.isPrefixOf s && seqMatch ps (s.drop l.length)
  | .one p :: ps, s =>
    match s with
    | [] => false
    | c :: s' => p c && seqMatch ps s'
  | .star p :: ps, s => starMatch p (seqMatch ps) s
  | .optc c :: ps, s =>
    seqMatch ps s ||
      (match s with
       | [] => false
       | c' :: s' => c' == c && seqMatch ps s')

/-- Unanchored search: does the pattern sequence match starting at any
position of `s`?  This is the regex crate's `Regex::is_match`. -/
def reSearch (ps : List Pat) : List Char → Bool
  | [] => seqMatch ps []
  | c :: rest => seqMatch ps (c :: rest) || reSearch ps rest

/-- The common anchor `def\s+\w+\s*:\s*` of the def-anchored recognizers. -/
def defAnchor : List Pat :=
  [.lit "def".data, .one spaceChar, .star spaceChar, .one wordChar,
   .star wordChar, .star spaceChar, .lit ":".data, .star spaceChar]

/-- `DIALECT_RE`: `def\s+\w+\s*:\s*Dialect\s*\{`. -/
def dialectPats : List Pat :=
  defAnchor ++ [.lit "Dialect".data, .star spaceChar, .lit "\x7b".data]

/-- `OP_RE`: `def\s+\w+\s*:\s*\w*_?Op<`. -/
def opPats : List Pat :=
  defAnchor ++ [.star wordChar, .optc '_', .lit "Op<".data]

/-- First alternative of `TYPEDEF_RE`: `def\s+\w+\s*:\s*\w*_?Type<`. -/
def typeCustomPats : List Pat :=
  defAnchor ++ [.star wordChar, .optc '_', .lit "Type<".data]

/-- Second alternative of `TYPEDEF_RE`: `def\s+\w+\s*:\s*TypeDef<`. -/
def typeDefPats : List Pat := defAnchor ++ [.lit "TypeDef<".data]

/-- First alternative of `ATTRDEF_RE`: `def\s+\w+\s*:\s*\w*_?Attr<`. -/
def attrCustomPats : List Pat :=
  defAnchor ++ [.star wordChar, .optc '_', .lit "Attr<".data]

/-- Second alternative of `ATTRDEF_RE`: `def\s+\w+\s*:\s*AttrDef<`. -/
def attrDefPats : List Pat := defAnchor ++ [.lit "AttrDef<".data]

/-- What a TableGen file contains, detected via text analysis
(`TdFileContents` in `tblgen.rs`). -/
structure TdFileContents where
  has_dialect : Bool
  has_ops : Bool
  has_types : Bool
  has_attrs : Bool
  has_enums : Bool
  has_function_interface : Bool
deriving DecidableEq, Repr

/-- `detect_td_contents`, applied to the text read from the file:
regex searches for the five entity kinds plus a literal substring test
for `FunctionOpInterface`.  `ENUM_RE` is the alternation
`(EnumAttr|IntEnumAttr|BitEnumAttr)`, embedded as three literal searches. -/
def detect_td_contents (content : String) : TdFileContents :=
  { has_dialect := reSearch dialectPats content.data
    has_ops := reSearch opPats content.data
    has_types := reSearch typeCustomPats content.data || reSearch typeDefPats content.data
    has_attrs := reSearch attrCustomPats content.data || reSearch attrDefPats content.data
    has_enums := reSearch [.lit "EnumAttr".data] content.data
      || reSearch [.lit "IntEnumAttr".data] content.data
      || reSearch [.lit "BitEnumAttr".data] content.data
    has_function_interface := reSearch [.lit "FunctionOpInterface".data] content.data }

/-- `TdFileContents::has_any`. -/
def TdFileContents.has_any (c : TdFileContents) : Bool :=
  c.has_dialect || c.has_ops || c.has_types || c.has_attrs || c.has_enums

/-- Substring containment, modelling `str::contains` (and the substring
relation used to state which phrases an error message cites). -/
def ContainsStr (s pat : String) : Prop := pat.data <:+: s.data

instance (s pat : String) : Decidable (ContainsStr s pat) := by
  unfold ContainsStr; infer_instance

/-! ## Errors (`src/melior-build/src/error.rs` and the variants used by
`lib.rs`)

`lib.rs` uses an `Error::InvalidNamespace(String)` variant; `error.rs` as
shipped lacks it, so it is included here as used, carrying its message. -/

/-- The crate's `Error` enum.  `IoError` is the `Io` variant wrapping a
`std::io::Error`, represented by its message text. -/
inductive BuildError where
  | MissingOutDir
  | LlvmNotFound
  | TblgenNotFound (path : String)
  | TblgenFailed (msg : String)
  | IoError (msg : String)
  | InvalidNamespace (msg : String)
deriving DecidableEq, Repr

/-! ## Namespace Resolver (`DialectBuilder::namespace_subdir`, lib.rs) -/

/-- The message for a namespace with leading or trailing `::`
(apostrophes written as `\x27`). -/
def nsMalformedMsg (ns : String) : String :=
  ("cpp_namespace \x27" ++ ns) ++ "\x27 has invalid leading or trailing \x27::\x27."

/-- The message for a single-level namespace. -/
def nsSingleMsg (ns single : String) : String :=
  (("cpp_namespace \x27" ++ ns) ++
      "\x27 must use the \x27mlir::namespace\x27 pattern. Did you mean \x27mlir::" ++
    single) ++ "\x27?"

/-- The message for a namespace that is not `mlir::<x>` with two levels. -/
def nsTooDeepMsg (ns : String) : String :=
  ("cpp_namespace \x27" ++ ns) ++
    "\x27 has more than 2 levels. Only \x27mlir::namespace\x27 pattern is supported."

/-- `DialectBuilder::namespace_subdir`: trim, reject leading/trailing `::`,
split on `::`, and accept exactly `["mlir", dialect]`.  A two-segment value
whose first segment is not `mlir` falls into the Rust match's `_` arm, like
three-or-more segments. -/
def namespace_subdir (cpp_namespace : Option String) : Except BuildError (Option String) :=
  match cpp_namespace with
  | none => .ok none
  | some ns =>
    let t := trimChars ns.data
    if t = [] then .ok none
    else if "::".data.isPrefixOf t || endsWithChars "::".data t then
      .error (.InvalidNamespace (nsMalformedMsg ns))
    else
      match splitOnColons t with
      | [a, b] =>
        if a = "mlir".data then .ok (some ⟨b⟩)
        else .error (.InvalidNamespace (nsTooDeepMsg ns))
      | [single] => .error (.InvalidNamespace (nsSingleMsg ns ⟨single⟩))
      | _ => .error (.InvalidNamespace (nsTooDeepMsg ns))

/-! ## Class-name derivation (`to_class_name`, lib.rs) -/

/-- Models `char::to_uppercase`: the ASCII uppercase for ASCII characters;
a replacement may be several characters long (e.g. `ß` uppercases to `SS`). -/
def rustToUppercase (c : Char) : List Char :=
  if c == 'ß' then ['S', 'S'] else [c.toUpper]

/-- One `split('_')` part: uppercase the first character, keep the rest. -/
def capitalizePart (p : List Char) : List Char :=
  match p with
  | [] => []
  | c :: rest => rustToUppercase c ++ rest

/-- `to_class_name`: split the dialect name on `_` and capitalize the first
character of each part (e.g. `math_ext` becomes `MathExt`). -/
def to_class_name (s : String) : String :=
  ⟨((splitOnUnderscore s.data).map capitalizePart).flatten⟩

/-! ## External Generator Invoker (`src/melior-build/src/tblgen.rs`)

`TblgenRunner::generate_for_file` is embedded as the list of `mlir-tblgen`
invocations it performs, in order; `TblgenRunner::run_tblgen` as the
execution of one invocation against an environment that fixes each
invocation's exit status and captured stderr. -/

/-- One input file as the pipeline sees it: its path, the result of
`Path::file_stem` (`none` when the base name cannot be determined), and the
result of `fs::read_to_string` (`none` for an unreadable file). -/
structure TdFile where
  path : String
  stem : Option String
  content : Option String
deriving DecidableEq, Repr

/-- One `mlir-tblgen` invocation: the generator action, the input file, the
output path, the include directories in command-line order (LLVM's include
directory first, then the user-supplied ones), and the `--dialect` name. -/
structure Invocation where
  action : String
  tdFile : String
  output : String
  includes : List String
  dialect : String
deriving DecidableEq, Repr

/-- The message of the configuration error for a file without a stem. -/
def invalidTdPathMsg (path : String) : String := "Invalid TD file path: " ++ path

/-- `TblgenRunner::generate_for_file`: resolve the file's stem (erroring
out if it has none), then emit one declarations pass and one definitions
pass for each capability flag set on the file, with MLIR-convention output
names derived from the file's own stem. -/
def generate_for_file (llvmInclude : String) (td : TdFile) (include_dirs : List String)
    (output_dir : String) (dialect_name : String) (contents : TdFileContents) :
    Except BuildError (List Invocation) :=
  match td.stem with
  | none => .error (.IoError (invalidTdPathMsg td.path))
  | some stem =>
    let inv := fun (action suffix : String) =>
      Invocation.mk action td.path (output_dir ++ "/" ++ stem ++ suffix)
        (llvmInclude :: include_dirs) dialect_name
    .ok
      ((if contents.has_dialect then
          [inv "-gen-dialect-decls" "Dialect.h.inc", inv "-gen-dialect-defs" "Dialect.cpp.inc"]
        else []) ++
       (if contents.has_ops then
          [inv "-gen-op-decls" ".h.inc", inv "-gen-op-defs" ".cpp.inc"]
        else []) ++
       (if contents.has_types then
          [inv "-gen-typedef-decls" "Types.h.inc", inv "-gen-typedef-defs" "Types.cpp.inc"]
        else []) ++
       (if contents.has_attrs then
          [inv "-gen-attrdef-decls" "Attrs.h.inc", inv "-gen-attrdef-defs" "Attrs.cpp.inc"]
        else []) ++
       (if contents.has_enums then
          [inv "-gen-enum-decls" "Enums.h.inc", inv "-gen-enum-defs" "Enums.cpp.inc"]
        else []))

/-! ## Aggregation (`DialectBuilder::build`, lib.rs lines 311-338) -/

/-- The options record `DialectBuilder::build` folds its per-file detection
into.  The Rust code names this `tblgen::GenerationOptions`, a type the
crate never defines; its four fields are the ones assigned in `build`. -/
structure GenerationOptions where
  generate_types : Bool
  generate_attributes : Bool
  generate_enums : Bool
  use_function_interface : Bool
deriving DecidableEq, Repr

/-- The aggregation loop of `DialectBuilder::build`: `|=` of each file's
detected flags, starting from all-false. -/
def aggregate_options (files : List TdFileContents) : GenerationOptions :=
  files.foldl
    (fun acc c =>
      { generate_types := acc.generate_types || c.has_types
        generate_attributes := acc.generate_attributes || c.has_attrs
        generate_enums := acc.generate_enums || c.has_enums
        use_function_interface := acc.use_function_interface || c.has_function_interface })
    ⟨false, false, false, false⟩

/-- `tblgen::GeneratedFiles`: which TD file stem produced each content
kind, used to build the include paths of the C++ registration file. -/
structure GeneratedFiles where
  dialect_stem : Option String
  ops_stem : Option String
  types_stem : Option String
  attrs_stem : Option String
  enums_stem : Option String
  use_function_interface : Bool
deriving DecidableEq, Repr

/-- Modelled from the spec: the StemProvenance record the Generation
Aggregator must produce (spec §3 and §4.3) — for each capability that some
file sets, the stem of the (first) contributing file.  The aggregation in
`DialectBuilder::build` as shipped does not compute this record. -/
def stem_provenance (files : List (String × TdFileContents)) : GeneratedFiles :=
  files.foldl
    (fun acc f =>
      { dialect_stem := acc.dialect_stem <|> (if f.2.has_dialect then some f.1 else none)
        ops_stem := acc.ops_stem <|> (if f.2.has_ops then some f.1 else none)
        types_stem := acc.types_stem <|> (if f.2.has_types then some f.1 else none)
        attrs_stem := acc.attrs_stem <|> (if f.2.has_attrs then some f.1 else none)
        enums_stem := acc.enums_stem <|> (if f.2.has_enums then some f.1 else none)
        use_function_interface := acc.use_function_interface || f.2.has_function_interface })
    ⟨none, none, none, none, none, false⟩

/-! ## Build pipeline model (`DialectBuilder::build` and helpers, lib.rs)

The build is embedded as a trace semantics: it returns the list of external
process spawn events in the order they happen, together with the result.
Directory creation and file writes perform no process spawns and are taken
as succeeding. -/

/-- An external process spawned by the build. -/
inductive Event where
  | spawnLlvmConfig (arg : String)
  | spawnTblgen (action : String) (tdFile : String)
  | spawnCc
deriving DecidableEq, Repr

/-- Is this event a generator or compiler process (as opposed to the
`llvm-config` toolchain probe)? -/
def Event.isGenerator : Event → Bool
  | .spawnTblgen _ _ => true
  | .spawnCc => true
  | .spawnLlvmConfig _ => false

/-- The host environment the build runs against: environment variables,
whether `llvm-config` can be spawned and what it prints, whether the
`mlir-tblgen` binary exists, and each tblgen invocation's exit status and
captured stderr (keyed by action and input file). -/
structure Env where
  var : String → Option String
  llvmConfigPresent : Bool
  llvmConfigOut : String → Option String
  tblgenExists : Bool
  tblgenOk : String → String → Bool
  tblgenStderr : String → String → String
  ccOk : Bool

/-- `DialectBuilder`: the builder configuration consumed by `build`. -/
structure DialectBuilder where
  name : String
  cpp_namespace : Option String
  td_files : List TdFile
  include_dirs : List String
  cpp_files : List String
  output_dir : Option String

/-- `DialectBuilder::get_output_dir`: the explicit override, else the
`OUT_DIR` environment variable, else a configuration error. -/
def get_output_dir (env : Env) (b : DialectBuilder) : Except BuildError String :=
  match b.output_dir with
  | some d => .ok d
  | none =>
    match env.var "OUT_DIR" with
    | some d => .ok d
    | none => .error .MissingOutDir

/-- `DialectBuilder::llvm_config`: spawn `llvm-config <arg>` when the
binary is present; `none` when it is absent or exits unsuccessfully. -/
def llvm_config_run (env : Env) (arg : String) : List Event × Option String :=
  if env.llvmConfigPresent then ([.spawnLlvmConfig arg], env.llvmConfigOut arg)
  else ([], none)

/-- Models `str::parse::<u32>` on the strings relevant here: a non-empty
all-digit string below `2^32`. -/
def rust_parse_u32 (s : String) : Option Nat :=
  if s.data ≠ [] ∧ s.data.all Char.isDigit then
    let n := s.data.foldl (fun acc c => acc * 10 + (c.toNat - 48)) 0
    if n < 4294967296 then some n else none
  else none

/-- `DialectBuilder::get_llvm_prefix`: probe `llvm-config --prefix`; on
success also probe `--version` and honor a `MLIR_SYS_<major>0_PREFIX`
override; otherwise fall back to the `LLVM_PREFIX` variable; else fail. -/
def get_llvm_install (env : Env) : List Event × Except BuildError String :=
  match llvm_config_run env "--prefix" with
  | (evs1, some root) =>
    (match llvm_config_run env "--version" with
     | (evs2, some version) =>
       (match rust_parse_u32 ⟨version.data.takeWhile (fun c => c != '.')⟩ with
        | some major =>
          (match env.var ("MLIR_SYS_" ++ toString major ++ "0_PREFIX") with
           | some p => (evs1 ++ evs2, .ok p)
           | none => (evs1 ++ evs2, .ok root))
        | none => (evs1 ++ evs2, .ok root))
     | (evs2, none) => (evs1 ++ evs2, .ok root))
  | (evs1, none) =>
    (match env.var "LLVM_PREFIX" with
     | some p => (evs1, .ok p)
     | none => (evs1, .error .LlvmNotFound))

/-- The message of the fatal error for a failed tblgen invocation, with the
failing action and the tool's captured stderr. -/
def tblgenFailedMsg (action stderrText : String) : String :=
  "mlir-tblgen " ++ action ++ " failed:\n" ++ stderrText

/-- `TblgenRunner::run_tblgen`: spawn the tool exactly once; a non-success
exit status is a fatal `TblgenFailed` error carrying the action and the
captured stderr, a success produces no error. -/
def run_tblgen_exec (env : Env) (inv : Invocation) : List Event × Except BuildError Unit :=
  ([.spawnTblgen inv.action inv.tdFile],
   if env.tblgenOk inv.action inv.tdFile then .ok ()
   else .error (.TblgenFailed (tblgenFailedMsg inv.action (env.tblgenStderr inv.action inv.tdFile))))

/-- Run the invocations of one file in order, stopping at the first
failure (each `run_tblgen` call in `generate_for_file` uses `?`). -/
def exec_invocations (env : Env) : List Invocation → List Event × Except BuildError Unit
  | [] => ([], .ok ())
  | inv :: rest =>
    match run_tblgen_exec env inv with
    | (evs, .error e) => (evs, .error e)
    | (evs, .ok ()) =>
      match exec_invocations env rest with
      | (evs2, r) => (evs ++ evs2, r)

/-- The message of the error for an unreadable TD file (the wrapped
`std::io::Error` text). -/
def readTdMsg (path : String) : String := "failed to read " ++ path

/-- The per-file loop of `DialectBuilder::build`: read and classify each
file, then run its generator invocations; any error aborts the build. -/
def process_files (env : Env) (llvmInclude : String) (inc_dir : String)
    (include_dirs : List String) (name : String) : List TdFile → List Event × Except BuildError Unit
  | [] => ([], .ok ())
  | f :: fs =>
    match f.content with
    | none => ([], .error (.IoError (readTdMsg f.path)))
    | some text =>
      match generate_for_file llvmInclude f include_dirs inc_dir name (detect_td_contents text) with
      | .error e => ([], .error e)
      | .ok invs =>
        match exec_invocations env invs with
        | (evs, .error e) => (evs, .error e)
        | (evs, .ok ()) =>
          match process_files env llvmInclude inc_dir include_dirs name fs with
          | (evs2, r) => (evs ++ evs2, r)

/-- The directory generated `.inc` files go to: `<out>/inc/<subdir>` when
the namespace yields a subdirectory, `<out>/inc` otherwise. -/
def inc_dir_of (out_dir : String) (sub : Option String) : String :=
  match sub with
  | some d => out_dir ++ "/inc/" ++ d
  | none => out_dir ++ "/inc"

/-- `DialectBuilder::build` as a trace: resolve the output directory, probe
the LLVM install (spawning `llvm-config` when present), check for the
`mlir-tblgen` binary, validate the namespace, process each TD file, then
compile the shim.  The flag aggregation interleaved with the loop is
`aggregate_options` of the classified files and spawns nothing; the shim
and binding synthesizer calls after the loop are file writes. -/
def build (env : Env) (b : DialectBuilder) : List Event × Except BuildError Unit :=
  match get_output_dir env b with
  | .error e => ([], .error e)
  | .ok out_dir =>
    match get_llvm_install env with
    | (evs, .error e) => (evs, .error e)
    | (evs, .ok llvmRoot) =>
      if env.tblgenExists then
        match namespace_subdir b.cpp_namespace with
        | .error e => (evs, .error e)
        | .ok sub =>
          match process_files env (llvmRoot ++ "/include") (inc_dir_of out_dir sub)
              b.include_dirs b.name b.td_files with
          | (evs2, .error e) => (evs ++ evs2, .error e)
          | (evs2, .ok ()) =>
            (evs ++ evs2 ++ [.spawnCc],
             if env.ccOk then .ok () else .error (.IoError "C++ compilation failed"))
      else (evs, .error (.TblgenNotFound (llvmRoot ++ "/bin/mlir-tblgen")))

/-! ## Shim Synthesizer (`cpp_gen::generate_cpp_registration`)

The module `cpp_gen` is declared in lib.rs and exercised by the crate's
integration tests, but its source file is not part of the source tree, so
the synthesizer is modelled from the spec (§4.4) and from the substrings
the integration tests require of its output. -/

/-- An include path under the `inc/` tree: `<subdir>/<fname>` when a
namespace subdirectory exists, bare `<fname>` otherwise. -/
def incPath (subdir : Option String) (fname : String) : String :=
  match subdir with
  | some d => d ++ "/" ++ fname
  | none => fname

/-- One `#include` directive of the generated shim. -/
def includeLine (subdir : Option String) (fname : String) : String :=
  "#include \"" ++ incPath subdir fname ++ "\"\n"

/-- An include directive for a capability's generated fragment, emitted
only when some file produced that capability. -/
def optInclude (subdir : Option String) (stemOpt : Option String) (suffix : String) : String :=
  match stemOpt with
  | some st => includeLine subdir (st ++ suffix)
  | none => ""

/-- Modelled from the spec: `cpp_gen::generate_cpp_registration` (missing
from the source tree).  Produces the C++ registration shim text: include
directives for each produced fragment using each capability's own stem,
under the namespace subdirectory when one exists, the function-interface
header when used, and the fixed C-API registration macro naming the
CamelCase dialect class inside the two-level namespace. -/
def generate_cpp_registration_text (name cppNs : String) (g : GeneratedFiles)
    (subdir : Option String) : String :=
  let cls := to_class_name name
  "// Generated dialect registration for \x27" ++ name ++ "\x27\n" ++
  "#include \"mlir/CAPI/Registration.h\"\n" ++
  (if g.use_function_interface then "#include \"mlir/Interfaces/FunctionInterfaces.h\"\n"
   else "") ++
  optInclude subdir g.dialect_stem "Dialect.h.inc" ++
  optInclude subdir g.ops_stem ".h.inc" ++
  optInclude subdir g.types_stem "Types.h.inc" ++
  optInclude subdir g.attrs_stem "Attrs.h.inc" ++
  optInclude subdir g.enums_stem "Enums.h.inc" ++
  optInclude subdir g.dialect_stem "Dialect.cpp.inc" ++
  optInclude subdir g.ops_stem ".cpp.inc" ++
  optInclude subdir g.types_stem "Types.cpp.inc" ++
  optInclude subdir g.attrs_stem "Attrs.cpp.inc" ++
  optInclude subdir g.enums_stem "Enums.cpp.inc" ++
  ("MLIR_DEFINE_CAPI_DIALECT_REGISTRATION(" ++ cls ++ ", " ++ name ++ ", " ++
    (cppNs ++ "::" ++ cls ++ "Dialect") ++ ")\n")

/-! ## Binding Synthesizer (`rust_gen::generate_rust_ffi`)

The module `rust_gen` is likewise declared in lib.rs and exercised by the
integration tests but missing from the source tree; the binding module
text is modelled from the spec (§4.5) and the tests' required substrings.
Braces are written `\x7b`/`\x7d`. -/

/-- Modelled from the spec: `rust_gen::generate_rust_ffi` (missing from the
source tree).  Produces the Rust binding module: a foreign declaration of
`mlirGetDialectHandle__<name>__`, the four safe wrappers, inside an inner
module named `<name>_registration` that is then re-exported. -/
def generate_rust_ffi_text (name : String) : String :=
  ("mod " ++ name ++ "_registration") ++
  " \x7b\n    unsafe extern \"C\" \x7b\n        fn " ++
  ("mlirGetDialectHandle__" ++ name ++ "__") ++
  "() -> ::melior::dialect::DialectHandle;\n    \x7d\n\n    " ++
  "pub fn dialect_handle()" ++
  " -> ::melior::dialect::DialectHandle \x7b\n        unsafe \x7b mlirGetDialectHandle__" ++
  name ++
  "__() \x7d\n    \x7d\n\n    " ++
  "pub fn register(" ++
  "context: &::melior::Context) \x7b\n        dialect_handle().register_dialect(context)\n    \x7d\n\n    " ++
  "pub fn load(" ++
  "context: &::melior::Context) \x7b\n        dialect_handle().load_dialect(context)\n    \x7d\n\n    " ++
  "pub fn insert_into_registry(" ++
  "registry: &::melior::dialect::DialectRegistry) \x7b\n        dialect_handle().insert_dialect(registry)\n    \x7d\n\x7d\n\n" ++
  ("pub use " ++ name ++ "_registration::") ++
  "\x7bdialect_handle, register, load, insert_into_registry\x7d;\n"

/-! ## Sample TableGen texts

Concrete definition-language texts, taken from the shapes exercised by the
crate's own unit tests: template/base-class declarations, def-anchored
definitions deriving from locally declared templates, and def-anchored
definitions deriving directly from the reserved base forms. -/

/-- A text containing only template/base-class declarations of the Op and
Type kinds (the crate's `test_class_definitions_not_detected_as_ops`
templates, without the dialect definition). -/
def tdClassOnlyText : String :=
  "class Bril_Op<string mnemonic, list<Trait> traits = []> :\n    Op<Bril_Dialect, mnemonic, traits>;\n\nclass Bril_Type<string name, string typeMnemonic, list<Trait> traits = []> :\n    TypeDef<Bril_Dialect, name, traits>;\n"

/-- A dialect definition followed by Op and Type template declarations
(the full text of `test_class_definitions_not_detected_as_ops`). -/
def tdDialectAndClassText : String :=
  "def Bril_Dialect : Dialect \x7b\n    let name = \"bril\";\n\x7d\n\n// This is a base class definition, NOT an op\nclass Bril_Op<string mnemonic, list<Trait> traits = []> :\n    Op<Bril_Dialect, mnemonic, traits>;\n\n// Similarly, base class for types should not count\nclass Bril_Type<string name, string typeMnemonic, list<Trait> traits = []> :\n    TypeDef<Bril_Dialect, name, traits>;\n"

/-- A def-anchored operation deriving from a locally declared template
(`test_detect_ops`). -/
def tdOpText : String :=
  "def Bril_AddOp : Bril_Op<\"add\", [Pure]> \x7b\n    let arguments = (ins I64:$lhs, I64:$rhs);\n    let results = (outs I64);\n\x7d\n"

/-- A def-anchored operation deriving directly from the reserved `Op<`
base form (`test_detect_direct_op`). -/
def tdDirectOpText : String :=
  "def MyOp : Op<MyDialect, \"my_op\"> \x7b\n    let results = (outs I64);\n\x7d\n"

/-- A def-anchored type record deriving from a locally declared template
(`test_detect_types`). -/
def tdTypeText : String :=
  "def Bril_PtrType : Bril_Type<\"Ptr\", \"ptr\"> \x7b\n    let mnemonic = \"ptr\";\n\x7d\n"

/-- A def-anchored type record deriving directly from `TypeDef<`. -/
def tdTypeDefText : String :=
  "def MyType : TypeDef<MyDialect, \"My\"> \x7b\n    let mnemonic = \"my\";\n\x7d\n"

/-- A def-anchored attribute record deriving from a locally declared
template. -/
def tdAttrText : String :=
  "def Bril_FooAttr : Bril_Attr<\"Foo\", \"foo\"> \x7b\n\x7d\n"

/-- A def-anchored attribute record deriving directly from `AttrDef<`. -/
def tdAttrDefText : String :=
  "def MyAttr : AttrDef<MyDialect, \"my\"> \x7b\n\x7d\n"

/-! ## Concrete build scenario for the ordering claim -/

/-- An environment where `llvm-config` is available (printing an install
root for `--prefix`), `OUT_DIR` is set, and the `mlir-tblgen` binary
exists and always succeeds. -/
def cexEnv : Env :=
  { var := fun v => if v = "OUT_DIR" then some "/tmp/out" else none
    llvmConfigPresent := true
    llvmConfigOut := fun arg => if arg = "--prefix" then some "/usr/lib/llvm" else none
    tblgenExists := true
    tblgenOk := fun _ _ => true
    tblgenStderr := fun _ _ => ""
    ccOk := true }

/-- A builder whose only configuration problem is a malformed (one-level)
namespace. -/
def cexBuilder : DialectBuilder :=
  { name := "bril"
    cpp_namespace := some "bril"
    td_files := []
    include_dirs := []
    cpp_files := []
    output_dir := none }

/-! ## Helper lemmas -/

theorem containsStr_self (s : String) : ContainsStr s s :=
  ⟨[], [], by simp⟩

theorem containsStr_left {s : String} {pat : String} (t : String)
    (h : ContainsStr s pat) : ContainsStr (s ++ t) pat := by
  unfold ContainsStr at h ⊢
  rw [String.data_append]
  exact h.trans ⟨[], t.data, by simp⟩

theorem containsStr_right (s : String) {t pat : String}
    (h : ContainsStr t pat) : ContainsStr (s ++ t) pat := by
  unfold ContainsStr at h ⊢
  rw [String.data_append]
  exact h.trans ⟨s.data, [], by simp⟩

/-- A successful `seqMatch` of a pattern sequence headed by a literal means
the literal is a prefix of the text. -/
theorem seqMatch_lit_isPrefix {l : List Char} {ps : List Pat} {s : List Char}
    (h : seqMatch (.lit l :: ps) s = true) : l <+: s := by
  unfold seqMatch at h
  rcases Bool.and_eq_true_iff.mp h with ⟨h1, _⟩
  exact List.isPrefixOf_iff_prefix.mp h1

/-- A successful unanchored search for a pattern sequence headed by a
literal means the literal occurs as an infix of the text. -/
theorem reSearch_lit_occurs {l : List Char} {ps : List Pat} :
    ∀ {s : List Char}, reSearch (.lit l :: ps) s = true → l <:+: s := by
  intro s
  induction s with
  | nil =>
    intro h
    unfold reSearch at h
    exact (seqMatch_lit_isPrefix h).isInfix
  | cons c rest ih =>
    intro h
    unfold reSearch at h
    rcases Bool.or_eq_true_iff.mp h with h1 | h2
    · exact (seqMatch_lit_isPrefix h1).isInfix
    · exact List.infix_cons (ih h2)

/-- A search for a pattern sequence anchored on the literal `def` fails on
any text that does not contain `def` as a substring. -/
theorem noDef_search_false (t : String) (h : ¬ ContainsStr t "def") (ps : List Pat) :
    reSearch (.lit "def".data :: ps) t.data = false := by
  cases hrs : reSearch (.lit "def".data :: ps) t.data with
  | false => rfl
  | true => exact absurd (reSearch_lit_occurs hrs) h

/-- A pattern `patLit ++ mid` occurs in `(x ++ b) ++ mid` when `patLit` is
a suffix of `b`. -/
theorem containsStr_glue (x b mid patLit bpre : String) (hb : b = bpre ++ patLit) :
    ContainsStr ((x ++ b) ++ mid) (patLit ++ mid) := by
  subst hb
  unfold ContainsStr
  refine ⟨x.data ++ bpre.data, [], ?_⟩
  simp [String.data_append, List.append_assoc]

/-- A pattern `(patLit ++ mid) ++ last` occurs in `((x ++ b) ++ mid) ++ last`
when `patLit` is a suffix of `b`. -/
theorem containsStr_glue2 (x b mid last patLit bpre : String) (hb : b = bpre ++ patLit) :
    ContainsStr (((x ++ b) ++ mid) ++ last) ((patLit ++ mid) ++ last) := by
  subst hb
  unfold ContainsStr
  refine ⟨x.data ++ bpre.data, [], ?_⟩
  simp [String.data_append, List.append_assoc]

/-- `Bool.any` of a list is invariant under permutation. -/
theorem perm_any {α : Type} {l₁ l₂ : List α} (h : l₁.Perm l₂) (f : α → Bool) :
    l₁.any f = l₂.any f := by
  cases hb : l₂.any f with
  | true =>
    rcases List.any_eq_true.mp hb with ⟨x, hx, hf⟩
    exact List.any_eq_true.mpr ⟨x, h.mem_iff.mpr hx, hf⟩
  | false =>
    cases ha : l₁.any f with
    | false => rfl
    | true =>
      rcases List.any_eq_true.mp ha with ⟨x, hx, hf⟩
      have h2 := List.any_eq_true.mpr ⟨x, h.mem_iff.mp hx, hf⟩
      simp [hb] at h2

/-- The aggregation fold of `build` computes, field by field, the `any` of
the corresponding per-file flags. -/
theorem aggregate_options_eq_any (l : List TdFileContents) :
    aggregate_options l =
      ⟨l.any (·.has_types), l.any (·.has_attrs), l.any (·.has_enums),
        l.any (·.has_function_interface)⟩ := by
  have go : ∀ (l : List TdFileContents) (acc : GenerationOptions),
      List.foldl
        (fun acc c =>
          { generate_types := acc.generate_types || c.has_types
            generate_attributes := acc.generate_attributes || c.has_attrs
            generate_enums := acc.generate_enums || c.has_enums
            use_function_interface := acc.use_function_interface || c.has_function_interface })
        acc l =
      ⟨acc.generate_types || l.any (·.has_types),
        acc.generate_attributes || l.any (·.has_attrs),
        acc.generate_enums || l.any (·.has_enums),
        acc.use_function_interface || l.any (·.has_function_interface)⟩ := by
    intro l
    induction l with
    | nil => intro acc; simp
    | cons c cs ih => intro acc; simp [ih, List.any_cons, Bool.or_assoc]
  unfold aggregate_options
  rw [go]
  simp

/-! ## Claims -/

/-- C2: the Namespace Resolver behaves exactly as specified, rule by rule
and in order: `none` or a blank/whitespace-only namespace yields no
subdirectory and no error; a trimmed value of the exact two-segment form
`mlir::X` succeeds and returns `X`; a value with leading or trailing `::`
fails citing the malformed separator; a one-segment value fails with a
message suggesting the `mlir::<value>` form; a value of three or more
segments fails citing the two-level limit. -/
theorem c2_namespace_resolver :
    (namespace_subdir none = .ok none) ∧
    (∀ s : String, trimChars s.data = [] → namespace_subdir (some s) = .ok none) ∧
    (∀ (s : String) (x : List Char),
      trimChars s.data ≠ [] →
      ("::".data.isPrefixOf (trimChars s.data) || endsWithChars "::".data (trimChars s.data)) = false →
      splitOnColons (trimChars s.data) = ["mlir".data, x] →
      namespace_subdir (some s) = .ok (some ⟨x⟩)) ∧
    (∀ s : String,
      trimChars s.data ≠ [] →
      ("::".data.isPrefixOf (trimChars s.data) || endsWithChars "::".data (trimChars s.data)) = true →
      ∃ m, namespace_subdir (some s) = .error (.InvalidNamespace m) ∧
        ContainsStr m "invalid leading or trailing \x27::\x27") ∧
    (∀ (s : String) (x : List Char),
      trimChars s.data ≠ [] →
      ("::".data.isPrefixOf (trimChars s.data) || endsWithChars "::".data (trimChars s.data)) = false →
      splitOnColons (trimChars s.data) = [x] →
      ∃ m, namespace_subdir (some s) = .error (.InvalidNamespace m) ∧
        ContainsStr m "must use the \x27mlir::namespace\x27 pattern" ∧
        ContainsStr m ("mlir::" ++ (⟨x⟩ : String) ++ "\x27?")) ∧
    (∀ (s : String) (p q r : List Char) (rest : List (List Char)),
      trimChars s.data ≠ [] →
      ("::".data.isPrefixOf (trimChars s.data) || endsWithChars "::".data (trimChars s.data)) = false →
      splitOnColons (trimChars s.data) = p :: q :: r :: rest →
      ∃ m, namespace_subdir (some s) = .error (.InvalidNamespace m) ∧
        ContainsStr m "has more than 2 levels") := by
  refine ⟨rfl, ?_, ?_, ?_, ?_, ?_⟩
  · intro s h1
    simp [namespace_subdir, h1]
  · intro s x h1 h2 h3
    simp only [namespace_subdir, h1, h2, h3]
    simp
  · intro s h1 h2
    refine ⟨nsMalformedMsg s, ?_, ?_⟩
    · simp only [namespace_subdir, h1, h2]
      simp
    · exact containsStr_right _ (by decide)
  · intro s x h1 h2 h3
    refine ⟨nsSingleMsg s ⟨x⟩, ?_, ?_, ?_⟩
    · simp only [namespace_subdir, h1, h2, h3]
      simp
    · exact containsStr_left _ (containsStr_left _ (containsStr_right _ (by decide)))
    · exact containsStr_glue2 ("cpp_namespace \x27" ++ s)
        "\x27 must use the \x27mlir::namespace\x27 pattern. Did you mean \x27mlir::"
        (⟨x⟩ : String) "\x27?" "mlir::"
        "\x27 must use the \x27mlir::namespace\x27 pattern. Did you mean \x27" (by decide)
  · intro s p q r rest h1 h2 h3
    refine ⟨nsTooDeepMsg s, ?_, ?_⟩
    · simp only [namespace_subdir, h1, h2, h3]
      simp
    · exact containsStr_right _ (by decide)

/-- Witness for C2: the resolver evaluated on one concrete input of each
shape. -/
theorem c2_namespace_resolver_witness :
    namespace_subdir (some "mlir::bril") = .ok (some "bril") ∧
    namespace_subdir (some "   ") = .ok none ∧
    (∃ m, namespace_subdir (some "::mlir::bril") = .error (.InvalidNamespace m) ∧
      ContainsStr m "invalid leading or trailing \x27::\x27") ∧
    (∃ m, namespace_subdir (some "bril") = .error (.InvalidNamespace m) ∧
      ContainsStr m "must use the \x27mlir::namespace\x27 pattern" ∧
      ContainsStr m ("mlir::" ++ "bril" ++ "\x27?")) ∧
    (∃ m, namespace_subdir (some "mlir::foo::bar") = .error (.InvalidNamespace m) ∧
      ContainsStr m "has more than 2 levels") :=
  ⟨c2_namespace_resolver.2.2.1 "mlir::bril" "bril".data (by decide) (by decide) (by decide),
   c2_namespace_resolver.2.1 "   " (by decide),
   c2_namespace_resolver.2.2.2.1 "::mlir::bril" (by decide) (by decide),
   c2_namespace_resolver.2.2.2.2.1 "bril" "bril".data (by decide) (by decide) (by decide),
   c2_namespace_resolver.2.2.2.2.2 "mlir::foo::bar" "mlir".data "foo".data "bar".data []
     (by decide) (by decide) (by decide)⟩

/-- C6: the aggregated options are, field by field, the logical OR (`any`)
of the per-file capability flags, and the aggregate is invariant under
permutation of the input-file list. -/
theorem c6_aggregate_or_and_perm_invariant :
    (∀ l : List TdFileContents,
      (aggregate_options l).generate_types = l.any (·.has_types) ∧
      (aggregate_options l).generate_attributes = l.any (·.has_attrs) ∧
      (aggregate_options l).generate_enums = l.any (·.has_enums) ∧
      (aggregate_options l).use_function_interface = l.any (·.has_function_interface)) ∧
    (∀ l₁ l₂ : List TdFileContents, l₁.Perm l₂ → aggregate_options l₁ = aggregate_options l₂) := by
  constructor
  · intro l
    rw [aggregate_options_eq_any]
    exact ⟨rfl, rfl, rfl, rfl⟩
  · intro l₁ l₂ h
    simp only [aggregate_options_eq_any, perm_any h]

/-- Witness for C6: aggregation of a two-file list and of its reversal. -/
theorem c6_aggregate_witness :
    aggregate_options
        [⟨false, true, false, false, false, false⟩, ⟨false, false, true, false, true, false⟩] =
      aggregate_options
        [⟨false, false, true, false, true, false⟩, ⟨false, true, false, false, false, false⟩] :=
  c6_aggregate_or_and_perm_invariant.2 _ _ (by decide)

/-- The toolchain probe's trace contains at most the two `llvm-config`
spawns, and its only possible error is `LlvmNotFound`. -/
theorem get_llvm_install_shape (env : Env) :
    ((get_llvm_install env).1 = [] ∨
     (get_llvm_install env).1 = [.spawnLlvmConfig "--prefix"] ∨
     (get_llvm_install env).1 = [.spawnLlvmConfig "--prefix", .spawnLlvmConfig "--version"]) ∧
    ∀ e, (get_llvm_install env).2 = .error e → e = .LlvmNotFound := by
  cases hp : env.llvmConfigPresent
  · rcases hv : env.var "LLVM_PREFIX" with _ | p
    · have heq : get_llvm_install env = ([], .error .LlvmNotFound) := by
        simp [get_llvm_install, llvm_config_run, hp, hv]
      rw [heq]
      exact ⟨.inl rfl, fun e he => (Except.error.inj he).symm⟩
    · have heq : get_llvm_install env = ([], .ok p) := by
        simp [get_llvm_install, llvm_config_run, hp, hv]
      rw [heq]
      refine ⟨.inl rfl, fun e he => ?_⟩
      simp at he
  · rcases ho : env.llvmConfigOut "--prefix" with _ | root
    · rcases hv : env.var "LLVM_PREFIX" with _ | p
      · have heq : get_llvm_install env = ([.spawnLlvmConfig "--prefix"], .error .LlvmNotFound) := by
          simp [get_llvm_install, llvm_config_run, hp, ho, hv]
        rw [heq]
        exact ⟨.inr (.inl rfl), fun e he => (Except.error.inj he).symm⟩
      · have heq : get_llvm_install env = ([.spawnLlvmConfig "--prefix"], .ok p) := by
          simp [get_llvm_install, llvm_config_run, hp, ho, hv]
        rw [heq]
        refine ⟨.inr (.inl rfl), fun e he => ?_⟩
        simp at he
    · rcases ho2 : env.llvmConfigOut "--version" with _ | v
      · have heq : get_llvm_install env =
            ([.spawnLlvmConfig "--prefix", .spawnLlvmConfig "--version"], .ok root) := by
          simp [get_llvm_install, llvm_config_run, hp, ho, ho2]
        rw [heq]
        refine ⟨.inr (.inr rfl), fun e he => ?_⟩
        simp at he
      · rcases hp2 : rust_parse_u32 ⟨v.data.takeWhile (fun c => c != '.')⟩ with _ | mj
        · have heq : get_llvm_install env =
              ([.spawnLlvmConfig "--prefix", .spawnLlvmConfig "--version"], .ok root) := by
            simp [get_llvm_install, llvm_config_run, hp, ho, ho2, hp2]
          rw [heq]
          refine ⟨.inr (.inr rfl), fun e he => ?_⟩
          simp at he
        · rcases hv2 : env.var ("MLIR_SYS_" ++ toString mj ++ "0_PREFIX") with _ | p
          · have heq : get_llvm_install env =
                ([.spawnLlvmConfig "--prefix", .spawnLlvmConfig "--version"], .ok root) := by
              simp [get_llvm_install, llvm_config_run, hp, ho, ho2, hp2, hv2]
            rw [heq]
            refine ⟨.inr (.inr rfl), fun e he => ?_⟩
            simp at he
          · have heq : get_llvm_install env =
                ([.spawnLlvmConfig "--prefix", .spawnLlvmConfig "--version"], .ok p) := by
              simp [get_llvm_install, llvm_config_run, hp, ho, ho2, hp2, hv2]
            rw [heq]
            refine ⟨.inr (.inr rfl), fun e he => ?_⟩
            simp at he

/-- No event of the toolchain probe is a generator or compiler spawn. -/
theorem get_llvm_install_no_generator (env : Env) :
    ∀ ev ∈ (get_llvm_install env).1, ev.isGenerator = false := by
  rcases (get_llvm_install_shape env).1 with h | h | h <;> rw [h] <;> intro ev hev <;> simp at hev
  · rw [hev]; rfl
  · rcases hev with h1 | h1 <;> rw [h1] <;> rfl

/-- The namespace resolver only ever fails with `InvalidNamespace`. -/
theorem namespace_subdir_error_shape (o : Option String) (e : BuildError)
    (h : namespace_subdir o = .error e) : ∃ m, e = .InvalidNamespace m := by
  rcases o with _ | ns
  · exact absurd h (by simp [namespace_subdir])
  · simp only [namespace_subdir] at h
    split at h
    · cases h
    · split at h
      · exact ⟨_, (Except.error.inj h).symm⟩
      · split at h
        · split at h
          · cases h
          · exact ⟨_, (Except.error.inj h).symm⟩
        · exact ⟨_, (Except.error.inj h).symm⟩
        · exact ⟨_, (Except.error.inj h).symm⟩

/-- Per-file generation only ever fails with `IoError` (the missing-stem
configuration error). -/
theorem generate_for_file_error_shape (llvmInclude : String) (td : TdFile)
    (include_dirs : List String) (output_dir dialect_name : String)
    (contents : TdFileContents) (e : BuildError)
    (h : generate_for_file llvmInclude td include_dirs output_dir dialect_name contents =
      .error e) : ∃ m, e = .IoError m := by
  unfold generate_for_file at h
  cases hst : td.stem <;> rw [hst] at h
  · exact ⟨_, (Except.error.inj h).symm⟩
  · cases h

/-- Executing a file's invocations only ever fails with `TblgenFailed`. -/
theorem exec_invocations_error_shape (env : Env) (invs : List Invocation) (e : BuildError)
    (h : (exec_invocations env invs).2 = .error e) : ∃ m, e = .TblgenFailed m := by
  induction invs with
  | nil => simp [exec_invocations] at h
  | cons inv rest ih =>
    unfold exec_invocations run_tblgen_exec at h
    cases hok : env.tblgenOk inv.action inv.tdFile <;>
      simp only [hok, if_true, if_false, Bool.false_eq_true] at h
    · exact ⟨_, (Except.error.inj h).symm⟩
    · rcases hrest : exec_invocations env rest with ⟨evs2, r⟩
      rw [hrest] at h
      simp at h
      exact ih (by rw [hrest]; exact h)

/-- Processing a list whose first file is unreadable fails immediately,
spawning nothing. -/
theorem process_files_unreadable_head (env : Env) (llvmInclude inc_dir : String)
    (include_dirs : List String) (name : String) (f : TdFile) (fs : List TdFile)
    (h : f.content = none) :
    process_files env llvmInclude inc_dir include_dirs name (f :: fs) =
      ([], .error (.IoError (readTdMsg f.path))) := by
  unfold process_files
  rw [h]

/-- The per-file loop only ever fails with `IoError` or `TblgenFailed`. -/
theorem process_files_error_shape (env : Env) (llvmInclude inc_dir : String)
    (include_dirs : List String) (name : String) (files : List TdFile) (e : BuildError)
    (h : (process_files env llvmInclude inc_dir include_dirs name files).2 = .error e) :
    (∃ m, e = .IoError m) ∨ (∃ m, e = .TblgenFailed m) := by
  induction files with
  | nil => simp [process_files] at h
  | cons f fs ih =>
    rcases hc : f.content with _ | text
    · rw [process_files_unreadable_head env llvmInclude inc_dir include_dirs name f fs hc] at h
      exact .inl ⟨_, (Except.error.inj h).symm⟩
    · have heq : process_files env llvmInclude inc_dir include_dirs name (f :: fs) =
          (match generate_for_file llvmInclude f include_dirs inc_dir name
              (detect_td_contents text) with
           | .error e => ([], .error e)
           | .ok invs =>
             match exec_invocations env invs with
             | (evs, .error e) => (evs, .error e)
             | (evs, .ok ()) =>
               (evs ++ (process_files env llvmInclude inc_dir include_dirs name fs).1,
                 (process_files env llvmInclude inc_dir include_dirs name fs).2)) := by
        simp only [process_files, hc]
      rw [heq] at h
      cases hg : generate_for_file llvmInclude f include_dirs inc_dir name
          (detect_td_contents text) with
      | error e2 =>
        rw [hg] at h
        have he : e2 = e := Except.error.inj h
        rcases generate_for_file_error_shape _ _ _ _ _ _ _ hg with ⟨m, hm⟩
        exact .inl ⟨m, by rw [← he]; exact hm⟩
      | ok invs =>
        rw [hg] at h
        have h2 : (match exec_invocations env invs with
            | (evs, Except.error e) => (evs, Except.error e)
            | (evs, Except.ok ()) =>
              (evs ++ (process_files env llvmInclude inc_dir include_dirs name fs).1,
                (process_files env llvmInclude inc_dir include_dirs name fs).2)).2 =
            Except.error e := h
        generalize hex : exec_invocations env invs = p at h2
        obtain ⟨evs, r⟩ := p
        cases r with
        | error e2 =>
          have he : e2 = e := Except.error.inj h2
          rcases exec_invocations_error_shape env invs e2 (by rw [hex]) with ⟨m, hm⟩
          exact .inr ⟨m, by rw [← he]; exact hm⟩
        | ok u => exact ih h2

/-- C1: the dialect/operations/type-records/attribute-records recognizers
are anchored on the `def` keyword: any text without a `def` substring (in
particular one containing only template/base-class declarations) sets none
of those flags; the crate's own class-only text (with its dialect
definition) sets only the dialect flag; and def-anchored definitions
deriving from a local template or directly from the reserved base form set
the corresponding flag. -/
theorem c1_classifier_def_anchored :
    (∀ t : String, ¬ ContainsStr t "def" →
      (detect_td_contents t).has_dialect = false ∧
      (detect_td_contents t).has_ops = false ∧
      (detect_td_contents t).has_types = false ∧
      (detect_td_contents t).has_attrs = false) ∧
    (detect_td_contents tdDialectAndClassText).has_dialect = true ∧
    (detect_td_contents tdDialectAndClassText).has_ops = false ∧
    (detect_td_contents tdDialectAndClassText).has_types = false ∧
    (detect_td_contents tdOpText).has_ops = true ∧
    (detect_td_contents tdDirectOpText).has_ops = true ∧
    (detect_td_contents tdTypeText).has_types = true ∧
    (detect_td_contents tdTypeDefText).has_types = true ∧
    (detect_td_contents tdAttrText).has_attrs = true ∧
    (detect_td_contents tdAttrDefText).has_attrs = true := by
  refine ⟨?_, by decide, by decide, by decide, by decide, by decide, by decide, by decide,
    by decide, by decide⟩
  intro t h
  simp only [detect_td_contents, dialectPats, opPats, typeCustomPats, typeDefPats,
    attrCustomPats, attrDefPats, defAnchor, List.cons_append, List.nil_append]
  simp [noDef_search_false t h]

/-- Witness for C1: the universal def-anchoring clause applied to the
class-only text. -/
theorem c1_classifier_witness :
    (detect_td_contents tdClassOnlyText).has_dialect = false ∧
    (detect_td_contents tdClassOnlyText).has_ops = false ∧
    (detect_td_contents tdClassOnlyText).has_types = false ∧
    (detect_td_contents tdClassOnlyText).has_attrs = false :=
  c1_classifier_def_anchored.1 tdClassOnlyText (by decide)

/-- C10: the class-name derivation splits on `_` and capitalizes each
part's first character (uppercasing multi-character replacements in full),
and the synthesized shim names the dialect class by this derived CamelCase
name inside the namespace, not by the raw dialect name. -/
theorem c10_class_name_derivation :
    to_class_name "toy" = "Toy" ∧
    to_class_name "math_ext" = "MathExt" ∧
    to_class_name "my_custom_dialect" = "MyCustomDialect" ∧
    to_class_name "" = "" ∧
    to_class_name "ßx" = "SSx" ∧
    to_class_name "operand_test" = "OperandTest" ∧
    ContainsStr
      (generate_cpp_registration_text "operand_test" "mlir::operand_test"
        ⟨some "OperandTestOps", some "OperandTestOps", none, none, none, false⟩
        (some "operand_test"))
      ("mlir::operand_test::" ++ to_class_name "operand_test" ++ "Dialect") ∧
    ¬ ContainsStr
      (generate_cpp_registration_text "operand_test" "mlir::operand_test"
        ⟨some "OperandTestOps", some "OperandTestOps", none, none, none, false⟩
        (some "operand_test"))
      ("mlir::operand_test::" ++ "operand_test" ++ "Dialect") := by
  refine ⟨by decide, by decide, by decide, by decide, by decide, by decide, by decide, by decide⟩

/-- C3, evaluated at the failing input: two file lists whose type-records
capability comes from differently named files have different per-capability
stem records (`stem_provenance`, the record the spec and the crate's tests
require the synthesizer to receive), yet `DialectBuilder::build`'s actual
aggregation (`aggregate_options`, a stem-less four-flag record) is
identical on them — the build step records no stem provenance at all. -/
theorem c3_build_aggregation_discards_stems :
    stem_provenance
        [("BrilOps", ⟨false, true, false, false, false, false⟩),
         ("BrilTypes", ⟨false, false, true, false, false, false⟩)] ≠
      stem_provenance
        [("BrilOps", ⟨false, true, false, false, false, false⟩),
         ("OtherTypes", ⟨false, false, true, false, false, false⟩)] ∧
    (stem_provenance
        [("BrilOps", ⟨false, true, false, false, false, false⟩),
         ("BrilTypes", ⟨false, false, true, false, false, false⟩)]).types_stem =
      some "BrilTypes" ∧
    (stem_provenance
        [("BrilOps", ⟨false, true, false, false, false, false⟩),
         ("OtherTypes", ⟨false, false, true, false, false, false⟩)]).types_stem =
      some "OtherTypes" ∧
    aggregate_options [⟨false, true, false, false, false, false⟩,
        ⟨false, false, true, false, false, false⟩] =
      aggregate_options [⟨false, true, false, false, false, false⟩,
        ⟨false, false, true, false, false, false⟩] := by
  refine ⟨by decide, by decide, by decide, rfl⟩

/-- C4: for a file whose stem resolves, the invoker produces, for each
capability flag set on the file, exactly one declarations pass and one
definitions pass, each passing the file path, the include-directory list
(LLVM include first) and the dialect name, with the output path equal to
the file's own stem plus the fixed per-capability suffix pair. -/
theorem c4_invoker_per_capability (llvmInclude : String) (td : TdFile)
    (include_dirs : List String) (output_dir dialect_name : String)
    (contents : TdFileContents) (stem : String) (h : td.stem = some stem) :
    ∃ invs,
      generate_for_file llvmInclude td include_dirs output_dir dialect_name contents = .ok invs ∧
      invs.length =
        (if contents.has_dialect then 2 else 0) + (if contents.has_ops then 2 else 0) +
        (if contents.has_types then 2 else 0) + (if contents.has_attrs then 2 else 0) +
        (if contents.has_enums then 2 else 0) ∧
      invs.filter (fun i => i.action == "-gen-dialect-decls") =
        (if contents.has_dialect then
          [⟨"-gen-dialect-decls", td.path, output_dir ++ "/" ++ stem ++ "Dialect.h.inc",
            llvmInclude :: include_dirs, dialect_name⟩] else []) ∧
      invs.filter (fun i => i.action == "-gen-dialect-defs") =
        (if contents.has_dialect then
          [⟨"-gen-dialect-defs", td.path, output_dir ++ "/" ++ stem ++ "Dialect.cpp.inc",
            llvmInclude :: include_dirs, dialect_name⟩] else []) ∧
      invs.filter (fun i => i.action == "-gen-op-decls") =
        (if contents.has_ops then
          [⟨"-gen-op-decls", td.path, output_dir ++ "/" ++ stem ++ ".h.inc",
            llvmInclude :: include_dirs, dialect_name⟩] else []) ∧
      invs.filter (fun i => i.action == "-gen-op-defs") =
        (if contents.has_ops then
          [⟨"-gen-op-defs", td.path, output_dir ++ "/" ++ stem ++ ".cpp.inc",
            llvmInclude :: include_dirs, dialect_name⟩] else []) ∧
      invs.filter (fun i => i.action == "-gen-typedef-decls") =
        (if contents.has_types then
          [⟨"-gen-typedef-decls", td.path, output_dir ++ "/" ++ stem ++ "Types.h.inc",
            llvmInclude :: include_dirs, dialect_name⟩] else []) ∧
      invs.filter (fun i => i.action == "-gen-typedef-defs") =
        (if contents.has_types then
          [⟨"-gen-typedef-defs", td.path, output_dir ++ "/" ++ stem ++ "Types.cpp.inc",
            llvmInclude :: include_dirs, dialect_name⟩] else []) ∧
      invs.filter (fun i => i.action == "-gen-attrdef-decls") =
        (if contents.has_attrs then
          [⟨"-gen-attrdef-decls", td.path, output_dir ++ "/" ++ stem ++ "Attrs.h.inc",
            llvmInclude :: include_dirs, dialect_name⟩] else []) ∧
      invs.filter (fun i => i.action == "-gen-attrdef-defs") =
        (if contents.has_attrs then
          [⟨"-gen-attrdef-defs", td.path, output_dir ++ "/" ++ stem ++ "Attrs.cpp.inc",
            llvmInclude :: include_dirs, dialect_name⟩] else []) ∧
      invs.filter (fun i => i.action == "-gen-enum-decls") =
        (if contents.has_enums then
          [⟨"-gen-enum-decls", td.path, output_dir ++ "/" ++ stem ++ "Enums.h.inc",
            llvmInclude :: include_dirs, dialect_name⟩] else []) ∧
      invs.filter (fun i => i.action == "-gen-enum-defs") =
        (if contents.has_enums then
          [⟨"-gen-enum-defs", td.path, output_dir ++ "/" ++ stem ++ "Enums.cpp.inc",
            llvmInclude :: include_dirs, dialect_name⟩] else []) := by
  obtain ⟨path, so, co⟩ := td
  have h2 : so = some stem := h
  subst h2
  obtain ⟨d, o, t, a, e, fi⟩ := contents
  cases d <;> cases o <;> cases t <;> cases a <;> cases e <;>
    exact ⟨_, rfl, rfl, rfl, rfl, rfl, rfl, rfl, rfl, rfl, rfl, rfl, rfl⟩

/-- Witness for C4: the invoker evaluated on a concrete file that defines
a dialect and operations. -/
theorem c4_invoker_witness :
    ∃ invs,
      generate_for_file "/llvm/include" ⟨"dialect/BrilOps.td", some "BrilOps", none⟩
          ["dialect"] "/out/inc" "bril" ⟨true, true, false, false, false, false⟩ = .ok invs ∧
      invs.length = 4 ∧
      invs.filter (fun i => i.action == "-gen-dialect-decls") =
        [⟨"-gen-dialect-decls", "dialect/BrilOps.td", "/out/inc/BrilOpsDialect.h.inc",
          ["/llvm/include", "dialect"], "bril"⟩] ∧
      invs.filter (fun i => i.action == "-gen-dialect-defs") =
        [⟨"-gen-dialect-defs", "dialect/BrilOps.td", "/out/inc/BrilOpsDialect.cpp.inc",
          ["/llvm/include", "dialect"], "bril"⟩] ∧
      invs.filter (fun i => i.action == "-gen-op-decls") =
        [⟨"-gen-op-decls", "dialect/BrilOps.td", "/out/inc/BrilOps.h.inc",
          ["/llvm/include", "dialect"], "bril"⟩] ∧
      invs.filter (fun i => i.action == "-gen-op-defs") =
        [⟨"-gen-op-defs", "dialect/BrilOps.td", "/out/inc/BrilOps.cpp.inc",
          ["/llvm/include", "dialect"], "bril"⟩] ∧
      invs.filter (fun i => i.action == "-gen-typedef-decls") = [] ∧
      invs.filter (fun i => i.action == "-gen-typedef-defs") = [] ∧
      invs.filter (fun i => i.action == "-gen-attrdef-decls") = [] ∧
      invs.filter (fun i => i.action == "-gen-attrdef-defs") = [] ∧
      invs.filter (fun i => i.action == "-gen-enum-decls") = [] ∧
      invs.filter (fun i => i.action == "-gen-enum-defs") = [] :=
  c4_invoker_per_capability "/llvm/include" ⟨"dialect/BrilOps.td", some "BrilOps", none⟩
    ["dialect"] "/out/inc" "bril" ⟨true, true, false, false, false, false⟩ "BrilOps" rfl

/-- C7: a tblgen invocation spawns the tool exactly once (no retry); a
non-success exit produces a fatal error whose message carries the failing
action name and the captured stderr text; a successful exit produces no
error. -/
theorem c7_generator_failure_fatal (env : Env) (inv : Invocation) :
    (run_tblgen_exec env inv).1 = [.spawnTblgen inv.action inv.tdFile] ∧
    (env.tblgenOk inv.action inv.tdFile = false →
      (run_tblgen_exec env inv).2 =
        .error (.TblgenFailed (tblgenFailedMsg inv.action (env.tblgenStderr inv.action inv.tdFile))) ∧
      ContainsStr (tblgenFailedMsg inv.action (env.tblgenStderr inv.action inv.tdFile)) inv.action ∧
      ContainsStr (tblgenFailedMsg inv.action (env.tblgenStderr inv.action inv.tdFile))
        (env.tblgenStderr inv.action inv.tdFile)) ∧
    (env.tblgenOk inv.action inv.tdFile = true → (run_tblgen_exec env inv).2 = .ok ()) := by
  refine ⟨rfl, ?_, ?_⟩
  · intro hfail
    refine ⟨by simp [run_tblgen_exec, hfail], ?_, ?_⟩
    · exact containsStr_left _ (containsStr_left _ (containsStr_right _ (containsStr_self _)))
    · exact containsStr_right _ (containsStr_self _)
  · intro hok
    simp [run_tblgen_exec, hok]

/-- Witness for C7: a concrete failing invocation. -/
theorem c7_generator_failure_witness :
    (run_tblgen_exec
        ⟨fun _ => none, false, fun _ => none, true, fun _ _ => false,
          fun _ _ => "error: unknown record", true⟩
        ⟨"-gen-op-decls", "BrilOps.td", "/out/BrilOps.h.inc", [], "bril"⟩).2 =
      .error (.TblgenFailed (tblgenFailedMsg "-gen-op-decls" "error: unknown record")) ∧
    ContainsStr (tblgenFailedMsg "-gen-op-decls" "error: unknown record") "-gen-op-decls" ∧
    ContainsStr (tblgenFailedMsg "-gen-op-decls" "error: unknown record")
      "error: unknown record" :=
  (c7_generator_failure_fatal
      ⟨fun _ => none, false, fun _ => none, true, fun _ _ => false,
        fun _ _ => "error: unknown record", true⟩
      ⟨"-gen-op-decls", "BrilOps.td", "/out/BrilOps.h.inc", [], "bril"⟩).2.1 rfl

/-- C8: a file whose stem cannot be determined makes generation for that
file return a configuration error naming the offending path, whatever its
capability flags are — it is never silently skipped. -/
theorem c8_missing_stem_error (llvmInclude : String) (td : TdFile)
    (include_dirs : List String) (output_dir dialect_name : String)
    (contents : TdFileContents) (h : td.stem = none) :
    ∃ m,
      generate_for_file llvmInclude td include_dirs output_dir dialect_name contents =
        .error (.IoError m) ∧ ContainsStr m td.path := by
  obtain ⟨path, so, co⟩ := td
  have h2 : so = none := h
  subst h2
  exact ⟨invalidTdPathMsg path, rfl, containsStr_right _ (containsStr_self _)⟩

/-- Witness for C8: a concrete extension-less path with no stem, with
capability flags set. -/
theorem c8_missing_stem_witness :
    ∃ m,
      generate_for_file "/llvm/include" ⟨"..", none, none⟩ [] "/out/inc" "bril"
          ⟨true, true, true, true, true, true⟩ =
        .error (.IoError m) ∧ ContainsStr m ".." :=
  c8_missing_stem_error "/llvm/include" ⟨"..", none, none⟩ [] "/out/inc" "bril"
    ⟨true, true, true, true, true, true⟩ rfl

/-- C5 counterexample: in an environment where `llvm-config` is available,
a build whose only problem is a malformed (one-level) namespace reports
that configuration error only after the build has already spawned an
external process (`llvm-config --prefix`): the claim that every
configuration error is detected before any external process is spawned is
false on the code. -/
theorem c5_counterexample :
    (∃ m, (build cexEnv cexBuilder).2 = .error (.InvalidNamespace m)) ∧
    Event.spawnLlvmConfig "--prefix" ∈ (build cexEnv cexBuilder).1 ∧
    (build cexEnv cexBuilder).1 ≠ [] := by
  refine ⟨⟨nsSingleMsg "bril" "bril", rfl⟩, by decide, by decide⟩

/-- C5 amended: the missing output-directory error is reported with an
empty spawn trace; a malformed namespace, and an unreadable first input
file, are reported before any generator or compiler process is spawned —
but toolchain discovery may already have spawned `llvm-config`. -/
theorem c5_amended_ordering (env : Env) (b : DialectBuilder) :
    ((build env b).2 = .error .MissingOutDir → (build env b).1 = []) ∧
    (∀ m, (build env b).2 = .error (.InvalidNamespace m) →
      ∀ ev ∈ (build env b).1, ev.isGenerator = false) ∧
    (∀ f fs, b.td_files = f :: fs → f.content = none →
      ∀ ev ∈ (build env b).1, ev.isGenerator = false) := by
  cases hod : get_output_dir env b with
  | error e =>
    have heq : build env b = ([], .error e) := by simp only [build, hod]
    rw [heq]
    exact ⟨fun _ => rfl, fun m _ ev hev => absurd hev (by simp),
      fun f fs _ _ ev hev => absurd hev (by simp)⟩
  | ok out_dir =>
    have hglvm := get_llvm_install_no_generator env
    have hgshape := (get_llvm_install_shape env).2
    generalize hli : get_llvm_install env = li at hglvm hgshape
    obtain ⟨evs, r⟩ := li
    cases r with
    | error e =>
      have heq : build env b = (evs, .error e) := by simp only [build, hod, hli]
      have he : e = .LlvmNotFound := hgshape e rfl
      rw [heq]
      refine ⟨fun hmo => ?_, fun m hm => ?_, fun f fs _ _ => ?_⟩
      · have h2 : e = .MissingOutDir := Except.error.inj hmo
        rw [he] at h2
        cases h2
      · have h2 : e = .InvalidNamespace m := Except.error.inj hm
        rw [he] at h2
        cases h2
      · exact hglvm
    | ok llvmRoot =>
      cases htb : env.tblgenExists with
      | false =>
        have heq : build env b = (evs, .error (.TblgenNotFound (llvmRoot ++ "/bin/mlir-tblgen"))) := by
          simp only [build, hod, hli, htb, Bool.false_eq_true, if_false]
        rw [heq]
        refine ⟨fun hmo => ?_, fun m hm => ?_, fun f fs _ _ => ?_⟩
        · cases Except.error.inj hmo
        · cases Except.error.inj hm
        · exact hglvm
      | true =>
        cases hns : namespace_subdir b.cpp_namespace with
        | error e =>
          have heq : build env b = (evs, .error e) := by
            simp only [build, hod, hli, htb, if_true, hns]
          rcases namespace_subdir_error_shape b.cpp_namespace e hns with ⟨m0, hm0⟩
          rw [heq]
          refine ⟨fun hmo => ?_, fun m _ => ?_, fun f fs _ _ => ?_⟩
          · have h2 : e = .MissingOutDir := Except.error.inj hmo
            rw [hm0] at h2
            cases h2
          · exact hglvm
          · exact hglvm
        | ok sub =>
          have heq : build env b =
              (match process_files env (llvmRoot ++ "/include") (inc_dir_of out_dir sub)
                  b.include_dirs b.name b.td_files with
               | (evs2, .error e) => (evs ++ evs2, .error e)
               | (evs2, .ok ()) =>
                 (evs ++ evs2 ++ [.spawnCc],
                  if env.ccOk then .ok () else .error (.IoError "C++ compilation failed"))) := by
            simp only [build, hod, hli, htb, if_true, hns]
          generalize hpf : process_files env (llvmRoot ++ "/include") (inc_dir_of out_dir sub)
              b.include_dirs b.name b.td_files = pf at heq
          obtain ⟨evs2, r2⟩ := pf
          cases r2 with
          | error e =>
            have heq2 : build env b = (evs ++ evs2, .error e) := heq
            have hshape :=
              process_files_error_shape env (llvmRoot ++ "/include") (inc_dir_of out_dir sub)
                b.include_dirs b.name b.td_files e (by rw [hpf])
            rw [heq2]
            refine ⟨fun hmo => ?_, fun m hm => ?_, fun f fs h1 h2 => ?_⟩
            · have h3 : e = .MissingOutDir := Except.error.inj hmo
              rcases hshape with ⟨m1, hm1⟩ | ⟨m1, hm1⟩ <;> rw [hm1] at h3 <;> cases h3
            · have h3 : e = .InvalidNamespace m := Except.error.inj hm
              rcases hshape with ⟨m1, hm1⟩ | ⟨m1, hm1⟩ <;> rw [hm1] at h3 <;> cases h3
            · rw [h1] at hpf
              rw [process_files_unreadable_head env _ _ _ _ f fs h2] at hpf
              have hevs2 : ([] : List Event) = evs2 := congrArg Prod.fst hpf
              intro ev hev
              rw [← hevs2, List.append_nil] at hev
              exact hglvm ev hev
          | ok u =>
            have heq2 : build env b =
                (evs ++ evs2 ++ [.spawnCc],
                 if env.ccOk then .ok () else .error (.IoError "C++ compilation failed")) := heq
            rw [heq2]
            refine ⟨fun hmo => ?_, fun m hm => ?_, fun f fs h1 h2 => ?_⟩
            · cases hcc : env.ccOk <;> rw [hcc] at hmo
              · cases Except.error.inj hmo
              · cases hmo
            · cases hcc : env.ccOk <;> rw [hcc] at hm
              · cases Except.error.inj hm
              · cases hm
            · rw [h1] at hpf
              rw [process_files_unreadable_head env _ _ _ _ f fs h2] at hpf
              have : Except.error (BuildError.IoError (readTdMsg f.path)) = Except.ok u :=
                congrArg Prod.snd hpf
              cases this

/-- Witness for C5's amended ordering: a build with no output directory
spawns nothing before failing, and a build whose first TD file is
unreadable spawns no generator or compiler process. -/
theorem c5_amended_ordering_witness :
    (build
        ⟨fun _ => none, false, fun _ => none, false, fun _ _ => true, fun _ _ => "", true⟩
        cexBuilder).1 = [] ∧
    ∀ ev ∈ (build cexEnv
        { name := "bril", cpp_namespace := some "mlir::bril",
          td_files := [⟨"missing.td", some "missing", none⟩],
          include_dirs := [], cpp_files := [], output_dir := none }).1,
      ev.isGenerator = false :=
  ⟨(c5_amended_ordering
      ⟨fun _ => none, false, fun _ => none, false, fun _ _ => true, fun _ _ => "", true⟩
      cexBuilder).1 rfl,
   (c5_amended_ordering cexEnv
      { name := "bril", cpp_namespace := some "mlir::bril",
        td_files := [⟨"missing.td", some "missing", none⟩],
        include_dirs := [], cpp_files := [], output_dir := none }).2.2
     ⟨"missing.td", some "missing", none⟩ [] rfl rfl⟩

/-- C9: for any dialect name (containing no brace characters), the
synthesized binding module declares the foreign symbol
`mlirGetDialectHandle__<name>__`, defines the four wrappers
`dialect_handle`, `register`, `load` and `insert_into_registry`, wraps them
in an inner module `<name>_registration` that is re-exported, and has
balanced scope delimiters. -/
theorem c9_binding_synthesizer (name : String)
    (hob : name.data.count '\x7b' = 0) (hcb : name.data.count '\x7d' = 0) :
    ContainsStr (generate_rust_ffi_text name) ("mod " ++ name ++ "_registration") ∧
    ContainsStr (generate_rust_ffi_text name) ("mlirGetDialectHandle__" ++ name ++ "__") ∧
    ContainsStr (generate_rust_ffi_text name) "pub fn dialect_handle()" ∧
    ContainsStr (generate_rust_ffi_text name) "pub fn register(" ∧
    ContainsStr (generate_rust_ffi_text name) "pub fn load(" ∧
    ContainsStr (generate_rust_ffi_text name) "pub fn insert_into_registry(" ∧
    ContainsStr (generate_rust_ffi_text name) ("pub use " ++ name ++ "_registration::") ∧
    (generate_rust_ffi_text name).data.count '\x7b' =
      (generate_rust_ffi_text name).data.count '\x7d' := by
  unfold generate_rust_ffi_text
  refine ⟨?_, ?_, ?_, ?_, ?_, ?_, ?_, ?_⟩
  · exact containsStr_left _ (containsStr_left _ (containsStr_left _ (containsStr_left _
      (containsStr_left _ (containsStr_left _ (containsStr_left _ (containsStr_left _
      (containsStr_left _ (containsStr_left _ (containsStr_left _ (containsStr_left _
      (containsStr_left _ (containsStr_left _ (containsStr_left _
      (containsStr_self _)))))))))))))))
  · exact containsStr_left _ (containsStr_left _ (containsStr_left _ (containsStr_left _
      (containsStr_left _ (containsStr_left _ (containsStr_left _ (containsStr_left _
      (containsStr_left _ (containsStr_left _ (containsStr_left _ (containsStr_left _
      (containsStr_left _ (containsStr_right _ (containsStr_self _))))))))))))))
  · exact containsStr_left _ (containsStr_left _ (containsStr_left _ (containsStr_left _
      (containsStr_left _ (containsStr_left _ (containsStr_left _ (containsStr_left _
      (containsStr_left _ (containsStr_left _ (containsStr_left _
      (containsStr_right _ (containsStr_self _))))))))))))
  · exact containsStr_left _ (containsStr_left _ (containsStr_left _ (containsStr_left _
      (containsStr_left _ (containsStr_left _ (containsStr_left _
      (containsStr_right _ (containsStr_self _))))))))
  · exact containsStr_left _ (containsStr_left _ (containsStr_left _ (containsStr_left _
      (containsStr_left _ (containsStr_right _ (containsStr_self _))))))
  · exact containsStr_left _ (containsStr_left _ (containsStr_left _
      (containsStr_right _ (containsStr_self _))))
  · exact containsStr_left _ (containsStr_right _ (containsStr_self _))
  · simp only [String.data_append, List.count_append, hob, hcb]
    decide

/-- Witness for C9: the binding synthesizer evaluated at a concrete
dialect name. -/
theorem c9_binding_synthesizer_witness :
    ("operand_test".data.count '\x7b' = 0) ∧
    ("operand_test".data.count '\x7d' = 0) ∧
    (ContainsStr (generate_rust_ffi_text "operand_test")
        ("mod " ++ "operand_test" ++ "_registration") ∧
      ContainsStr (generate_rust_ffi_text "operand_test")
        ("mlirGetDialectHandle__" ++ "operand_test" ++ "__") ∧
      ContainsStr (generate_rust_ffi_text "operand_test") "pub fn dialect_handle()" ∧
      ContainsStr (generate_rust_ffi_text "operand_test") "pub fn register(" ∧
      ContainsStr (generate_rust_ffi_text "operand_test") "pub fn load(" ∧
      ContainsStr (generate_rust_ffi_text "operand_test") "pub fn insert_into_registry(" ∧
      ContainsStr (generate_rust_ffi_text "operand_test")
        ("pub use " ++ "operand_test" ++ "_registration::") ∧
      (generate_rust_ffi_text "operand_test").data.count '\x7b' =
        (generate_rust_ffi_text "operand_test").data.count '\x7d') :=
  ⟨by decide, by decide, c9_binding_synthesizer "operand_test" (by decide) (by decide)⟩

end MeliorBuild
